import Mathlib

/-!
Verification of the paintbrush resource engine.

This file gives a shallow embedding of the core of the repository:

* the JS-object data model used by request bodies and stored entities
  (association lists of string keys and JSON values, with spread-merge,
  key deletion and lookup mirroring the JavaScript semantics);
* the CRUD handlers synthesized by `buildRoutes` (src/lib/decorators.ts /
  src/lib/stores.ts), embedded as pure functions from the request and the
  current collection to the response, the new collection, the trace of
  store calls made, and the notification event published;
* the SQLite backing store (src/lib/sqlite-store.ts): the write queue
  (`createWriteQueue`), the per-table operations (insert / update /
  remove / findById / read / write), and the engine-level generation
  mechanics of `prepare`, `backup` and `restore`.

Theorems named `cN...` settle the corresponding claims.
-/

set_option autoImplicit false

namespace Paintbrush

/-! ## JS value and object model -/

/-- A JSON value as used in request bodies and stored entities. -/
inductive Val where
  | str (s : String)
  | num (n : Int)
  | bool (b : Bool)
  | null
  deriving DecidableEq, Repr

/-- A JS object: association list of keys and values.  Lookup takes the
first binding, so prepending a binding models overriding a key. -/
abbrev Obj := List (String × Val)

/-- Property lookup `o[k]`: `none` models JS `undefined`. -/
def Obj.get (o : Obj) (k : String) : Option Val :=
  (o.find? (fun p => p.1 == k)).map (fun p => p.2)

/-- Setting a literal key after spreads, as in `{ ...o, k: v }`. -/
def Obj.set (o : Obj) (k : String) (v : Val) : Obj := (k, v) :: o

/-- Spread merge `{ ...a, ...b }`: bindings of `b` override those of `a`
(first-match lookup makes prepending `b` the override). -/
def Obj.merge (a b : Obj) : Obj := b ++ a

/-- JS `delete o[k]`. -/
def Obj.deleteKey (o : Obj) (k : String) : Obj := o.filter (fun p => p.1 != k)

/-- JS `for (const k of ks) delete o[k]`. -/
def Obj.deleteKeys (o : Obj) (ks : List String) : Obj := ks.foldl Obj.deleteKey o

/-- JS truthiness of `body[field]` (absent, `null`, `""`, `0` and `false`
are falsy), used by the required-field check `if (!body[field])`. -/
def truthy : Option Val → Bool
  | none => false
  | some Val.null => false
  | some (Val.str s) => s != ""
  | some (Val.num n) => n != 0
  | some (Val.bool b) => b

/-- JS nullish coalescing `v ?? d` (`undefined` and `null` fall through). -/
def coalesce : Option Val → Val → Val
  | none, d => d
  | some Val.null, d => d
  | some v, _ => v

/-- The string id of an entity (`item.id`; entities satisfy
`T extends Record` with a string `id` in the source). -/
def idOf (item : Obj) : String :=
  match Obj.get item "id" with
  | some (Val.str s) => s
  | _ => ""

/-! ## Route synthesizer: the handlers produced by `buildRoutes`

`buildRoutes` (src/lib/decorators.ts, also the earlier copy in
src/lib/stores.ts) produces, for a `@Resource` class, handlers closed over
`requiredFields`, `readonlyFields`, `defaults`, the bound `store` and the
optional `notify` topic.  Each handler is embedded as a pure function of
the request data and the current store contents; its output records the
HTTP response, the store contents afterwards, the exact sequence of store
calls issued, and the published notification (if any). -/

/-- One call made against the bound `Store` / `GranularStore`. -/
inductive StoreCall where
  | read
  | write (items : List Obj)
  | insert (item : Obj)
  | update (id : String) (fields : Obj)
  | remove (id : String)
  | findById (id : String)
  deriving DecidableEq, Repr

/-- A published notification message (`server.publish(topic, ...)`). -/
inductive NotifyEvent where
  | create (item : Obj)
  | update (id : String) (fields : Obj)
  | delete (id : String)
  deriving DecidableEq, Repr

/-- HTTP response of a synthesized handler. -/
inductive HResp where
  | okItem (body : Obj)
  | okList (bodies : List Obj)
  | created (body : Obj)
  | badRequest (msg : String)
  | notFound
  | noContent
  deriving DecidableEq, Repr

/-- The JSON body of an `okItem`/`created` response. -/
def respBody : HResp → Obj
  | HResp.okItem b => b
  | HResp.created b => b
  | _ => []

/-- Result of one handler invocation. -/
structure HandlerOut where
  resp : HResp
  items : List Obj
  calls : List StoreCall
  event : Option (String × NotifyEvent)
  deriving DecidableEq, Repr

/-- Does a call trace contain any granular point operation? -/
def pointOp : StoreCall → Bool
  | StoreCall.insert _ => true
  | StoreCall.update _ _ => true
  | StoreCall.remove _ => true
  | StoreCall.findById _ => true
  | _ => false

/-- The `POST basePath` handler: validates required fields, assigns an id
(`body.id ?? crypto.randomUUID()`), builds
`{ ...defaults, ...body, id, createdAt: body.createdAt ?? now }`,
appends it to `store.read()` and persists via `store.write(items)`;
publishes a create event when a topic is declared and a server is wired.
`freshId` and `now` stand for `crypto.randomUUID()` and
`new Date().toISOString()`. -/
def createHandler (required : List String) (defaults : Obj)
    (notify : Option String) (serverPresent : Bool)
    (freshId now : String) (body : Obj) (items : List Obj) : HandlerOut :=
  match required.find? (fun f => !(truthy (Obj.get body f))) with
  | some f =>
    { resp := HResp.badRequest (f ++ " is required"),
      items := items, calls := [], event := none }
  | none =>
    let idVal := coalesce (Obj.get body "id") (Val.str freshId)
    let item := Obj.set (Obj.set (Obj.merge defaults body) "id" idVal)
      "createdAt" (coalesce (Obj.get body "createdAt") (Val.str now))
    let items2 := items ++ [item]
    { resp := HResp.created item,
      items := items2,
      calls := [StoreCall.read, StoreCall.write items2],
      event :=
        match notify with
        | some t => if serverPresent then some (t, NotifyEvent.create item) else none
        | none => none }

/-- The predicate of `items.findIndex((i) => i.id === req.params.id)`. -/
def hasParamId (pid : String) (i : Obj) : Bool :=
  Obj.get i "id" == some (Val.str pid)

/-- The `PUT basePath/:id` handler: reads the collection, finds the entity
by `req.params.id` (404 if absent), deletes every readonly field from the
body, merges `{ ...items[idx], ...body, id: req.params.id }` back into the
collection, persists via `store.write(items)`, and publishes
`(action: update, id, fields: body)` where `body` is the (mutated,
readonly-stripped) request body. -/
def updateHandler (readonlyFields : List String)
    (notify : Option String) (serverPresent : Bool)
    (pid : String) (body : Obj) (items : List Obj) : HandlerOut :=
  let idx := items.findIdx (hasParamId pid)
  if idx < items.length then
    let old := items.getD idx []
    let body2 := Obj.deleteKeys body readonlyFields
    let merged := Obj.set (Obj.merge old body2) "id" (Val.str pid)
    let items2 := items.set idx merged
    { resp := HResp.okItem merged,
      items := items2,
      calls := [StoreCall.read, StoreCall.write items2],
      event :=
        match notify with
        | some t => if serverPresent then some (t, NotifyEvent.update pid body2) else none
        | none => none }
  else
    { resp := HResp.notFound, items := items, calls := [StoreCall.read], event := none }

/-- The `DELETE basePath/:id` handler: filters the collection by id,
404 when nothing was removed, else persists the filtered collection and
publishes a delete event. -/
def deleteHandler (notify : Option String) (serverPresent : Bool)
    (pid : String) (items : List Obj) : HandlerOut :=
  let filtered := items.filter (fun i => !(hasParamId pid i))
  if filtered.length = items.length then
    { resp := HResp.notFound, items := items, calls := [StoreCall.read], event := none }
  else
    { resp := HResp.noContent,
      items := filtered,
      calls := [StoreCall.read, StoreCall.write filtered],
      event :=
        match notify with
        | some t => if serverPresent then some (t, NotifyEvent.delete pid) else none
        | none => none }

/-! ## Write queue (src/lib/sqlite-store.ts, `createWriteQueue`)

A queued task is a synchronous operation against the store state that
either returns a value and the new state or throws (the SQLite calls of Bun
are synchronous; a failed statement or rolled-back transaction leaves the
state unchanged, which the `Except`-on-error convention captures).  The
`drain` loop splices the whole pending queue as a batch and runs each
task under `try { resolve(op()) } catch (err) { reject(err) }`; tasks
enqueued while a batch runs form the next batch. -/

/-- A queued write task: the body of the closure passed to `enqueue`. -/
abbrev QOp (σ ε α : Type) := σ → Except ε (α × σ)

/-- The inner `for` loop of `drain` over one spliced batch: run each task
in order, resolving its own promise with its value or rejecting it with
its error, and continue with the remaining tasks either way.  Returns the
final state and the per-task results in submission order. -/
def drainQueue {σ ε α : Type} : List (QOp σ ε α) → σ → σ × List (Except ε α)
  | [], s => (s, [])
  | op :: rest, s =>
    match op s with
    | Except.ok (a, s2) =>
      let r := drainQueue rest s2
      (r.1, Except.ok a :: r.2)
    | Except.error e =>
      let r := drainQueue rest s
      (r.1, Except.error e :: r.2)

/-- The outer `while (queue.length > 0)` loop of `drain`: each iteration
splices the tasks currently queued (one batch) and runs them; tasks
submitted concurrently (between batches) are drained next. -/
def drainBatches {σ ε α : Type} : List (List (QOp σ ε α)) → σ → σ × List (Except ε α)
  | [], s => (s, [])
  | b :: rest, s =>
    let r := drainQueue b s
    let r2 := drainBatches rest r.1
    (r2.1, r.2 ++ r2.2)

/-- The state after one task ran: its new state on success, the old state
when it threw (the queue continues regardless). -/
def applyQOp {σ ε α : Type} (op : QOp σ ε α) (s : σ) : σ :=
  match op s with
  | Except.ok (_, s2) => s2
  | Except.error _ => s

/-! ## SQLite table model (src/lib/sqlite-store.ts)

A table is the two-column store `(id TEXT PRIMARY KEY, data TEXT)`; the
`data` column holds the JSON-serialized item, modelled here directly as
the parsed object.  The prepared statements translate to: -/

/-- Error raised by a failed SQLite statement. -/
inductive SqlErr where
  | constraintViolation
  deriving DecidableEq, Repr

/-- One stored row: primary key and payload. -/
abbrev Row := String × Obj

/-- Table contents in rowid order. -/
abbrev Table := List Row

/-- Does the table contain a row with this primary key? -/
def tableHasId (t : Table) (id : String) : Bool := t.any (fun r => r.1 == id)

/-- Statement `INSERT INTO t (id, data) VALUES (?, ?)` — a duplicate primary key
violates the constraint and throws; otherwise the row is appended. -/
def sqlInsert (t : Table) (id : String) (data : Obj) : Except SqlErr Table :=
  if tableHasId t id then Except.error SqlErr.constraintViolation
  else Except.ok (t ++ [(id, data)])

/-- Statement `INSERT ... ON CONFLICT(id) DO UPDATE SET data = excluded.data`. -/
def sqlUpsert (t : Table) (id : String) (data : Obj) : Table :=
  if tableHasId t id then
    t.map (fun r => if r.1 == id then (id, data) else r)
  else t ++ [(id, data)]

/-- Statement `DELETE FROM t WHERE id = ?`; also yields `result.changes`. -/
def sqlDelete (t : Table) (id : String) : Table × Nat :=
  (t.filter (fun r => r.1 != id), (t.filter (fun r => r.1 == id)).length)

/-- Statement `SELECT data FROM t WHERE id = ?`, parsed. -/
def sqlGet (t : Table) (id : String) : Option Obj :=
  (t.find? (fun r => r.1 == id)).map (fun r => r.2)

/-- Statement `SELECT data FROM t`, each row parsed. -/
def sqlAll (t : Table) : List Obj := t.map (fun r => r.2)

/-- The loop of the transaction of `write`: insert every item in order,
aborting (and rolling back) at the first constraint violation. -/
def insertAll : List Obj → Table → Except SqlErr Table
  | [], t => Except.ok t
  | i :: rest, t =>
    match sqlInsert t (idOf i) i with
    | Except.ok t2 => insertAll rest t2
    | Except.error e => Except.error e

/-- The queued body of `insert(item)`: run the insert statement and
return the item. -/
def insertOp (item : Obj) : QOp Table SqlErr Obj := fun t =>
  match sqlInsert t (idOf item) item with
  | Except.ok t2 => Except.ok (item, t2)
  | Except.error e => Except.error e

/-- The queued body of `write(items)`: a transaction clearing the table
and inserting every item; on failure the transaction rolls back (the
error convention keeps the pre-call table). -/
def writeOp (items : List Obj) : QOp Table SqlErr Unit := fun _ =>
  match insertAll items [] with
  | Except.ok t2 => Except.ok ((), t2)
  | Except.error e => Except.error e

/-- The queued body of `update(id, fields)`: fetch the row, `null` when
absent, else merge `{ ...existing, ...fields, id }` and upsert it. -/
def updateOp (id : String) (fields : Obj) : QOp Table SqlErr (Option Obj) := fun t =>
  match sqlGet t id with
  | none => Except.ok (none, t)
  | some existing =>
    let updated := Obj.set (Obj.merge existing fields) "id" (Val.str id)
    Except.ok (some updated, sqlUpsert t id updated)

/-- The queued body of `remove(id)`: run the delete statement and report
`result.changes > 0`. -/
def removeOp (id : String) : QOp Table SqlErr Bool := fun t =>
  Except.ok ((sqlDelete t id).2 != 0, (sqlDelete t id).1)

/-- Uniqueness of `id` within a table (the `PRIMARY KEY` invariant). -/
def NoDupIds (t : Table) : Prop := (t.map (fun r => r.1)).Nodup

/-! ## Storage engine with generation-based cache invalidation
(src/lib/sqlite-store.ts, `createDatabase`)

`createDatabase` holds the connection `db`, a `generation` counter, and
the write queue.  Each `sqliteStore(table)` handle caches its prepared
statements together with the generation (`gen`, initially `-1`) they
were built against; `prepare()` rebuilds them (after `CREATE TABLE IF
NOT EXISTS`) whenever `gen !== generation`.  `restore` closes the
connection, replaces the database file, reopens, and finally increments
`generation`.

The model tracks the logical database contents (name-indexed tables),
the identity of the current connection (a counter bumped on reopen), and
the generation.  A cached statement is usable only against the
connection it was prepared on; running it against a closed (older)
connection is the stale-handle error the generation check exists to
prevent. -/

/-- The whole database: contents of each created table. -/
abbrev Db := List (String × Table)

/-- Contents of a table, `none` when the table was never created. -/
def Db.getTable (db : Db) (name : String) : Option Table :=
  (db.find? (fun p => p.1 == name)).map (fun p => p.2)

/-- Replace (or create) the contents of a table. -/
def Db.setTable (db : Db) (name : String) (t : Table) : Db :=
  if db.any (fun p => p.1 == name) then
    db.map (fun p => if p.1 == name then (name, t) else p)
  else db ++ [(name, t)]

/-- Statement `CREATE TABLE IF NOT EXISTS`. -/
def createTableIfNotExists (db : Db) (name : String) : Db :=
  match Db.getTable db name with
  | some _ => db
  | none => db ++ [(name, [])]

/-- Engine state: database contents, identity of the open connection,
and the generation counter. -/
structure EngineState where
  db : Db
  conn : Nat
  generation : Nat
  deriving DecidableEq, Repr

/-- The cached prepared access of a table handle: the generation it was built
against (`let gen = -1` before the first `prepare()`), and the connection
its statements belong to. -/
structure TableCache where
  gen : Int
  conn : Nat
  deriving DecidableEq, Repr

/-- Errors surfaced by engine operations. -/
inductive EngErr where
  | constraintViolation
  | connectionClosed
  deriving DecidableEq, Repr

/-- The `prepare()` check: if the cached generation matches that of the engine, keep the
cache; otherwise run `CREATE TABLE IF NOT EXISTS` and rebuild the
prepared statements against the current connection, stamping them with
the current generation. -/
def prepare (name : String) (st : EngineState) (c : TableCache) :
    EngineState × TableCache :=
  if c.gen = (st.generation : Int) then (st, c)
  else ({ st with db := createTableIfNotExists st.db name },
        { gen := (st.generation : Int), conn := st.conn })

/-- An operation of the engine, as invoked on one `sqliteStore(name)`
handle (`read`/`write`/granular ops) or on the engine itself
(`backup`/`restore`). -/
inductive EngOp where
  | read
  | write (items : List Obj)
  | insert (item : Obj)
  | update (id : String) (fields : Obj)
  | remove (id : String)
  | findById (id : String)
  | backup
  | restore (data : Db)

/-- Is this the restore operation? -/
def isRestore : EngOp → Bool
  | EngOp.restore _ => true
  | _ => false

/-- Result value of an engine operation. -/
inductive EngRes where
  | items (l : List Obj)
  | item (o : Obj)
  | optItem (o : Option Obj)
  | removed (b : Bool)
  | bytes (d : Db)
  | unit
  deriving DecidableEq, Repr

/-- Run a table-level statement body: first `prepare()`, then execute the
cached statements — which only works if they belong to the currently
open connection — against the contents of the table. -/
def withPrepared (name : String) (st : EngineState) (c : TableCache)
    (k : Table → Except EngErr (EngRes × Table)) :
    Except EngErr EngRes × EngineState × TableCache :=
  let p := prepare name st c
  let st1 := p.1
  let c1 := p.2
  if c1.conn = st1.conn then
    match k ((Db.getTable st1.db name).getD []) with
    | Except.ok (r, t2) =>
      (Except.ok r, { st1 with db := Db.setTable st1.db name t2 }, c1)
    | Except.error e => (Except.error e, st1, c1)
  else (Except.error EngErr.connectionClosed, st1, c1)

/-- Lift a table-level `QOp` result into the engine. -/
def liftTableOp {α : Type} (f : QOp Table SqlErr α) (g : α → EngRes)
    (t : Table) : Except EngErr (EngRes × Table) :=
  match f t with
  | Except.ok (a, t2) => Except.ok (g a, t2)
  | Except.error SqlErr.constraintViolation => Except.error EngErr.constraintViolation

/-- One engine operation against the handle for table `name`:
* table operations run through `prepare()` and the cached statements;
* `backup` serializes the current database (`db.serialize()`);
* `restore` closes the connection, replaces the database file with the
  incoming bytes, reopens (a new connection), and increments the
  generation as its final step. -/
def runEngOp (name : String) (op : EngOp) (st : EngineState) (c : TableCache) :
    Except EngErr EngRes × EngineState × TableCache :=
  match op with
  | EngOp.read =>
    withPrepared name st c (fun t => Except.ok (EngRes.items (sqlAll t), t))
  | EngOp.write items =>
    withPrepared name st c (liftTableOp (writeOp items) (fun _ => EngRes.unit))
  | EngOp.insert item =>
    withPrepared name st c (liftTableOp (insertOp item) EngRes.item)
  | EngOp.update id fields =>
    withPrepared name st c (liftTableOp (updateOp id fields) EngRes.optItem)
  | EngOp.remove id =>
    withPrepared name st c (liftTableOp (removeOp id) EngRes.removed)
  | EngOp.findById id =>
    withPrepared name st c (fun t => Except.ok (EngRes.optItem (sqlGet t id), t))
  | EngOp.backup => (Except.ok (EngRes.bytes st.db), st, c)
  | EngOp.restore data =>
    (Except.ok EngRes.unit,
     { db := data, conn := st.conn + 1, generation := st.generation + 1 }, c)

/-- Run a sequence of engine operations on one handle. -/
def runEngOps (name : String) (ops : List EngOp) (s : EngineState × TableCache) :
    EngineState × TableCache :=
  ops.foldl (fun s op => (runEngOp name op s.1 s.2).2) s

/-- The cache coherence invariant relating a handle to the engine: the
cached generation never runs ahead of the generation of the engine, and when it matches,
the cached statements belong to the open connection. -/
def Inv (st : EngineState) (c : TableCache) : Prop :=
  c.gen ≤ (st.generation : Int) ∧ (c.gen = (st.generation : Int) → c.conn = st.conn)

/-! ### Restore step ordering (effect trace) -/

/-- Externally visible effects of engine operations. -/
inductive Effect where
  | closeConn
  | unlinkWal
  | unlinkShm
  | writeTempFile
  | renameTempToDb
  | openConn
  | pragmaWal
  | pragmaBusyTimeout
  | incrGeneration
  | serializeDb
  | execStatements
  deriving DecidableEq, Repr

/-- The effect sequence of `restore` (src/lib/sqlite-store.ts, lines
193-208): `db.close()`; unlink `-wal` and `-shm`; write the incoming
bytes to `path + ".restoring"`; rename onto `path`; `new Database(path)`
with the WAL and busy-timeout pragmas; `generation++`. -/
def restoreTrace : List Effect :=
  [Effect.closeConn, Effect.unlinkWal, Effect.unlinkShm, Effect.writeTempFile,
   Effect.renameTempToDb, Effect.openConn, Effect.pragmaWal,
   Effect.pragmaBusyTimeout, Effect.incrGeneration]

/-- Effect sequence of each engine operation. -/
def opEffects : EngOp → List Effect
  | EngOp.restore _ => restoreTrace
  | EngOp.backup => [Effect.serializeDb]
  | _ => [Effect.execStatements]

/-! ## Lemmas about the object model -/

theorem Obj.get_cons (p : String × Val) (o : Obj) (k : String) :
    Obj.get (p :: o) k = if p.1 = k then some p.2 else Obj.get o k := by
  by_cases h : p.1 = k
  · rw [if_pos h]
    unfold Obj.get
    rw [List.find?_cons_of_pos _ (by simp [h])]
    rfl
  · rw [if_neg h]
    unfold Obj.get
    rw [List.find?_cons_of_neg _ (by simp [h])]

theorem Obj.get_append (a b : Obj) (k : String) :
    Obj.get (a ++ b) k = (Obj.get a k).or (Obj.get b k) := by
  unfold Obj.get
  rw [List.find?_append]
  cases List.find? (fun p => p.1 == k) a <;> simp

theorem Obj.get_deleteKey (o : Obj) (k k2 : String) :
    Obj.get (Obj.deleteKey o k) k2 = if k2 = k then none else Obj.get o k2 := by
  induction o with
  | nil =>
    unfold Obj.deleteKey Obj.get
    simp only [List.filter_nil, List.find?_nil, Option.map_none]
    split <;> rfl
  | cons p t ih =>
    simp only [Obj.deleteKey, List.filter_cons] at ih ⊢
    by_cases h1 : p.1 = k <;> by_cases h2 : k2 = k <;> by_cases h3 : p.1 = k2 <;>
      simp_all [Obj.get_cons]

theorem Obj.get_deleteKeys (ks : List String) (o : Obj) (k : String) :
    Obj.get (Obj.deleteKeys o ks) k = if k ∈ ks then none else Obj.get o k := by
  induction ks generalizing o with
  | nil => simp [Obj.deleteKeys]
  | cons k2 t ih =>
    show Obj.get (Obj.deleteKeys (Obj.deleteKey o k2) t) k = _
    rw [ih, Obj.get_deleteKey]
    by_cases h1 : k ∈ t <;> by_cases h2 : k = k2 <;> simp [h1, h2]

/-- If `findIdx` found an element, the predicate holds at that position. -/
theorem findIdx_getD (p : Obj → Bool) (l : List Obj)
    (h : l.findIdx p < l.length) : p (l.getD (l.findIdx p) []) = true := by
  rw [List.getD_eq_getElem?_getD, List.getElem?_eq_getElem h]
  simpa using @List.findIdx_getElem _ p l h

theorem getD_set_self {l : List Obj} {i : Nat} {a : Obj} (h : i < l.length) :
    (l.set i a).getD i [] = a := by
  rw [List.getD_eq_getElem?_getD, List.getElem?_set_self h]
  rfl

theorem getD_set_ne {l : List Obj} {i j : Nat} {a : Obj} (h : i ≠ j) :
    (l.set i a).getD j [] = l.getD j [] := by
  rw [List.getD_eq_getElem?_getD, List.getElem?_set_ne h,
    ← List.getD_eq_getElem?_getD]

/-- Coalescing `v ?? d` keeps a present non-null value. -/
theorem coalesce_some {v : Val} (d : Val) (h : v ≠ Val.null) :
    coalesce (some v) d = v := by
  cases v <;> simp [coalesce] at h ⊢

/-! ## Lemmas about the write queue -/

theorem drainQueue_append {σ ε α : Type} (l1 l2 : List (QOp σ ε α)) (s : σ) :
    drainQueue (l1 ++ l2) s
      = ((drainQueue l2 (drainQueue l1 s).1).1,
         (drainQueue l1 s).2 ++ (drainQueue l2 (drainQueue l1 s).1).2) := by
  induction l1 generalizing s with
  | nil => simp [drainQueue]
  | cons op t ih =>
    simp only [List.cons_append, drainQueue]
    cases h : op s with
    | ok pr =>
      obtain ⟨a, s2⟩ := pr
      simp [h, ih]
    | error e =>
      simp [h, ih]

theorem drainQueue_state_foldl {σ ε α : Type} (ops : List (QOp σ ε α)) (s : σ) :
    (drainQueue ops s).1 = ops.foldl (fun st op => applyQOp op st) s := by
  induction ops generalizing s with
  | nil => rfl
  | cons op t ih =>
    rw [List.foldl_cons]
    cases h : op s with
    | ok pr =>
      obtain ⟨a, s2⟩ := pr
      have ha : applyQOp op s = s2 := by simp [applyQOp, h]
      rw [ha]
      simp only [drainQueue, h]
      exact ih s2
    | error e =>
      have ha : applyQOp op s = s := by simp [applyQOp, h]
      rw [ha]
      simp only [drainQueue, h]
      exact ih s

theorem drainQueue_length {σ ε α : Type} (ops : List (QOp σ ε α)) (s : σ) :
    (drainQueue ops s).2.length = ops.length := by
  induction ops generalizing s with
  | nil => rfl
  | cons op t ih =>
    simp only [drainQueue]
    cases h : op s with
    | ok pr => simp [h, ih]
    | error e => simp [h, ih]

theorem drainBatches_eq_drainQueue {σ ε α : Type}
    (batches : List (List (QOp σ ε α))) (s : σ) :
    drainBatches batches s = drainQueue batches.flatten s := by
  induction batches generalizing s with
  | nil => rfl
  | cons b rest ih =>
    simp only [drainBatches, List.flatten_cons, drainQueue_append, ih]

/-! ## Claim C2 -/

/-- Claim C2: tasks submitted to the write queue execute strictly in
submission order, one at a time, and the final store state equals the
sequential application of all submitted writes in submission order.

`drain` runs tasks synchronously one at a time inside the single
event-loop thread of Bun; concurrent submission is modelled by the tasks
arriving in arbitrary batches (one batch per iteration of the
`while` loop of `drain`).  Whatever the batching, draining equals processing the
flattened submission sequence front to back: the final state is the left
fold of the tasks in submission order, and every task gets exactly one
result, listed in submission order. -/
theorem c2_write_queue_fifo {σ ε α : Type}
    (batches : List (List (QOp σ ε α))) (s : σ) :
    drainBatches batches s = drainQueue batches.flatten s ∧
    (drainBatches batches s).1
      = batches.flatten.foldl (fun st op => applyQOp op st) s ∧
    (drainBatches batches s).2.length = batches.flatten.length := by
  refine ⟨drainBatches_eq_drainQueue batches s, ?_, ?_⟩
  · rw [drainBatches_eq_drainQueue, drainQueue_state_foldl]
  · rw [drainBatches_eq_drainQueue, drainQueue_length]

/-! ## Claim C9 -/

/-- Claim C9: when a queued task throws, only its own future is rejected
(with that error), and the tasks queued after it still execute from the
same state, each resolving or rejecting according to its own outcome. -/
theorem c9_failure_isolation {σ ε α : Type} (op1 : QOp σ ε α)
    (rest : List (QOp σ ε α)) (s : σ) (e : ε) (h : op1 s = Except.error e) :
    drainQueue (op1 :: rest) s
      = ((drainQueue rest s).1, Except.error e :: (drainQueue rest s).2) := by
  simp [drainQueue, h]

/-- Concrete instance of C9: a duplicate-id insert rejects its own
promise with the constraint violation while the next queued insert still
commits. -/
theorem c9_failure_isolation_witness :
    (insertOp [("id", Val.str "dup")]) [("dup", [("id", Val.str "dup")])]
      = Except.error SqlErr.constraintViolation ∧
    drainQueue [insertOp [("id", Val.str "dup")], insertOp [("id", Val.str "b")]]
        [("dup", [("id", Val.str "dup")])]
      = ((drainQueue [insertOp [("id", Val.str "b")]]
            [("dup", [("id", Val.str "dup")])]).1,
         Except.error SqlErr.constraintViolation
           :: (drainQueue [insertOp [("id", Val.str "b")]]
                 [("dup", [("id", Val.str "dup")])]).2) := by
  refine ⟨by rfl, ?_⟩
  exact c9_failure_isolation _ _ _ _ (by rfl)

/-! ## Claim C5 -/

/-- Claim C5: inserting an entity whose id already exists in the table
fails with a constraint violation: the promise of the queued task rejects
with the error (`drain` rejects only the future of that task, it does not
swallow the failure), and the table is left unchanged — the stored
entity is not overwritten. -/
theorem c5_duplicate_insert (item : Obj) (t : Table)
    (h : tableHasId t (idOf item) = true) :
    insertOp item t = Except.error SqlErr.constraintViolation ∧
    drainQueue [insertOp item] t = (t, [Except.error SqlErr.constraintViolation]) := by
  have h1 : insertOp item t = Except.error SqlErr.constraintViolation := by
    simp [insertOp, sqlInsert, h]
  refine ⟨h1, ?_⟩
  simp [drainQueue, h1]

/-- Concrete instance of C5 at a one-row table. -/
theorem c5_duplicate_insert_witness :
    tableHasId [("a", [("id", Val.str "a"), ("v", Val.num 1)])]
        (idOf [("id", Val.str "a"), ("v", Val.num 2)]) = true ∧
    (insertOp [("id", Val.str "a"), ("v", Val.num 2)]
        [("a", [("id", Val.str "a"), ("v", Val.num 1)])]
      = Except.error SqlErr.constraintViolation ∧
     drainQueue [insertOp [("id", Val.str "a"), ("v", Val.num 2)]]
        [("a", [("id", Val.str "a"), ("v", Val.num 1)])]
      = ([("a", [("id", Val.str "a"), ("v", Val.num 1)])],
         [Except.error SqlErr.constraintViolation])) :=
  ⟨by decide, c5_duplicate_insert _ _ (by decide)⟩

/-! ## Primary-key uniqueness of the SQLite table operations -/

theorem not_mem_of_hasId_false {t : Table} {id : String}
    (h : tableHasId t id = false) : id ∉ t.map (fun r => r.1) := by
  intro hmem
  obtain ⟨r, hr, hrid⟩ := List.mem_map.mp hmem
  have := (List.any_eq_false.mp h) r hr
  simp [hrid] at this

theorem nodup_sqlInsert {t t2 : Table} {id : String} {o : Obj}
    (h : NoDupIds t) (h2 : sqlInsert t id o = Except.ok t2) : NoDupIds t2 := by
  unfold sqlInsert at h2
  by_cases hc : tableHasId t id
  · simp [hc] at h2
  · rw [if_neg (by simp [hc])] at h2
    cases h2
    unfold NoDupIds
    rw [List.map_append, List.nodup_append]
    refine ⟨h, by simp, ?_⟩
    simpa [List.disjoint_singleton] using
      not_mem_of_hasId_false (Bool.eq_false_iff.mpr hc)

theorem nodup_insertAll {items : List Obj} :
    ∀ {t t2 : Table}, NoDupIds t → insertAll items t = Except.ok t2 → NoDupIds t2 := by
  induction items with
  | nil =>
    intro t t2 h h2
    cases h2
    exact h
  | cons i rest ih =>
    intro t t2 h h2
    unfold insertAll at h2
    cases hins : sqlInsert t (idOf i) i with
    | ok t3 =>
      rw [hins] at h2
      exact ih (nodup_sqlInsert h hins) h2
    | error e =>
      rw [hins] at h2
      cases h2

theorem nodup_sqlUpsert {t : Table} {id : String} {o : Obj}
    (h : NoDupIds t) : NoDupIds (sqlUpsert t id o) := by
  unfold sqlUpsert
  by_cases hc : tableHasId t id
  · rw [if_pos (by simp [hc])]
    unfold NoDupIds
    rw [List.map_map]
    have : t.map ((fun r => r.1) ∘ fun r : Row => if r.1 == id then (id, o) else r)
        = t.map (fun r => r.1) := by
      apply List.map_congr_left
      intro r _
      by_cases hb : r.1 = id <;> simp [hb]
    rw [this]
    exact h
  · rw [if_neg (by simp [hc])]
    unfold NoDupIds
    rw [List.map_append, List.nodup_append]
    refine ⟨h, by simp, ?_⟩
    simpa [List.disjoint_singleton] using
      not_mem_of_hasId_false (Bool.eq_false_iff.mpr hc)

theorem nodup_sqlDelete {t : Table} {id : String}
    (h : NoDupIds t) : NoDupIds (sqlDelete t id).1 :=
  List.Nodup.sublist ((List.filter_sublist t).map (fun r => r.1)) h

/-! ## Claim C8 -/

/-- Counterexample to claim C8 as stated: a Create request whose body
supplies an id already present in the collection appends a second entity
with that id and writes the duplicated collection to the store — id
uniqueness is not preserved by the synthesized handlers over a
whole-collection store. -/
theorem c8_counterexample :
    ((createHandler [] [] none false "fresh" "t0"
        [("id", Val.str "dup"), ("name", Val.str "Second")]
        [[("id", Val.str "dup"), ("name", Val.str "First")]]).items.map idOf)
      = ["dup", "dup"] ∧
    ¬ (((createHandler [] [] none false "fresh" "t0"
        [("id", Val.str "dup"), ("name", Val.str "Second")]
        [[("id", Val.str "dup"), ("name", Val.str "First")]]).items.map idOf).Nodup) ∧
    (createHandler [] [] none false "fresh" "t0"
        [("id", Val.str "dup"), ("name", Val.str "Second")]
        [[("id", Val.str "dup"), ("name", Val.str "First")]]).calls
      = [StoreCall.read,
         StoreCall.write (createHandler [] [] none false "fresh" "t0"
           [("id", Val.str "dup"), ("name", Val.str "Second")]
           [[("id", Val.str "dup"), ("name", Val.str "First")]]).items] := by
  refine ⟨by decide, by decide, by decide⟩

/-- Claim C8 as amended: the SQLite storage operations do preserve id
uniqueness within a table — `insert` rejects a duplicate id, `write`
(clear plus per-item inserts inside one transaction) fails and rolls
back on duplicates, `update` upserts under the existing key, `remove`
only deletes — but the synthesized Create handler itself appends the
posted entity without checking the supplied id, so over a plain
whole-collection store (memory/JSON file) a POST with an existing id
produces a duplicated collection (see the counterexample). -/
theorem c8_amended (t : Table) (h : NoDupIds t) :
    (∀ item, NoDupIds (applyQOp (insertOp item) t)) ∧
    (∀ items, NoDupIds (applyQOp (writeOp items) t)) ∧
    (∀ id fields, NoDupIds (applyQOp (updateOp id fields) t)) ∧
    (∀ id, NoDupIds (applyQOp (removeOp id) t)) := by
  refine ⟨?_, ?_, ?_, ?_⟩
  · intro item
    unfold applyQOp insertOp
    cases hins : sqlInsert t (idOf item) item with
    | ok t2 => simpa [hins] using nodup_sqlInsert h hins
    | error e => simpa [hins] using h
  · intro items
    unfold applyQOp writeOp
    cases hins : insertAll items [] with
    | ok t2 =>
      simpa [hins] using nodup_insertAll (show NoDupIds [] by simp [NoDupIds]) hins
    | error e => simpa [hins] using h
  · intro id fields
    unfold applyQOp updateOp
    cases hget : sqlGet t id with
    | none => simpa [hget] using h
    | some existing => simpa [hget] using nodup_sqlUpsert h
  · intro id
    unfold applyQOp removeOp
    simpa using nodup_sqlDelete h

/-- Concrete instance of the amended C8 at a two-row table. -/
theorem c8_amended_witness :
    NoDupIds [("a", [("id", Val.str "a")]), ("b", [("id", Val.str "b")])] ∧
    ((∀ item, NoDupIds (applyQOp (insertOp item)
        [("a", [("id", Val.str "a")]), ("b", [("id", Val.str "b")])])) ∧
     (∀ items, NoDupIds (applyQOp (writeOp items)
        [("a", [("id", Val.str "a")]), ("b", [("id", Val.str "b")])])) ∧
     (∀ id fields, NoDupIds (applyQOp (updateOp id fields)
        [("a", [("id", Val.str "a")]), ("b", [("id", Val.str "b")])])) ∧
     (∀ id, NoDupIds (applyQOp (removeOp id)
        [("a", [("id", Val.str "a")]), ("b", [("id", Val.str "b")])]))) :=
  ⟨by unfold NoDupIds; decide, c8_amended _ (by unfold NoDupIds; decide)⟩

/-! ## Lemmas about the storage engine -/

theorem prepare_state (name : String) (st : EngineState) (c : TableCache) :
    (prepare name st c).1.generation = st.generation ∧
    (prepare name st c).1.conn = st.conn := by
  unfold prepare
  split <;> exact ⟨rfl, rfl⟩

theorem prepare_cache (name : String) (st : EngineState) (c : TableCache)
    (h : Inv st c) :
    (prepare name st c).2.gen = ((prepare name st c).1.generation : Int) ∧
    (prepare name st c).2.conn = (prepare name st c).1.conn := by
  unfold prepare
  by_cases h1 : c.gen = (st.generation : Int)
  · rw [if_pos h1]
    exact ⟨h1, h.2 h1⟩
  · rw [if_neg h1]
    exact ⟨rfl, rfl⟩

theorem withPrepared_state (name : String) (st : EngineState) (c : TableCache)
    (k : Table → Except EngErr (EngRes × Table)) :
    ((withPrepared name st c k).2.1).generation = st.generation ∧
    ((withPrepared name st c k).2.1).conn = st.conn := by
  simp only [withPrepared]
  by_cases hcc : (prepare name st c).2.conn = (prepare name st c).1.conn
  · rw [if_pos hcc]
    cases hk : k ((Db.getTable (prepare name st c).1.db name).getD []) with
    | ok pr =>
      obtain ⟨r, t2⟩ := pr
      simp [hk, prepare_state name st c]
    | error e => simp [hk, prepare_state name st c]
  · rw [if_neg hcc]
    simp [prepare_state name st c]

theorem withPrepared_cache (name : String) (st : EngineState) (c : TableCache)
    (k : Table → Except EngErr (EngRes × Table)) :
    (withPrepared name st c k).2.2 = (prepare name st c).2 := by
  simp only [withPrepared]
  by_cases hcc : (prepare name st c).2.conn = (prepare name st c).1.conn
  · rw [if_pos hcc]
    cases hk : k ((Db.getTable (prepare name st c).1.db name).getD []) with
    | ok pr =>
      obtain ⟨r, t2⟩ := pr
      simp [hk]
    | error e => simp [hk]
  · rw [if_neg hcc]

theorem withPrepared_inv (name : String) (st : EngineState) (c : TableCache)
    (k : Table → Except EngErr (EngRes × Table)) (h : Inv st c) :
    Inv ((withPrepared name st c k).2.1) ((withPrepared name st c k).2.2) := by
  have hc := prepare_cache name st c h
  have hs := withPrepared_state name st c k
  have e1 : (withPrepared name st c k).2.2.gen = (st.generation : Int) := by
    rw [withPrepared_cache, hc.1, (prepare_state name st c).1]
  have e2 : (withPrepared name st c k).2.2.conn = st.conn := by
    rw [withPrepared_cache, hc.2, (prepare_state name st c).2]
  refine ⟨?_, fun _ => ?_⟩
  · rw [e1, hs.1]
  · rw [e2, hs.2]

theorem runEngOp_inv (name : String) (op : EngOp) (st : EngineState)
    (c : TableCache) (h : Inv st c) :
    Inv (runEngOp name op st c).2.1 (runEngOp name op st c).2.2 := by
  cases op with
  | backup => exact h
  | restore d =>
    refine ⟨?_, fun heq => ?_⟩
    · have h1 := h.1
      simp only [runEngOp]
      push_cast
      omega
    · exfalso
      have h1 := h.1
      simp only [runEngOp] at heq
      push_cast at heq
      omega
  | read => exact withPrepared_inv name st c _ h
  | write items => exact withPrepared_inv name st c _ h
  | insert item => exact withPrepared_inv name st c _ h
  | update id fields => exact withPrepared_inv name st c _ h
  | remove id => exact withPrepared_inv name st c _ h
  | findById id => exact withPrepared_inv name st c _ h

theorem withPrepared_not_closed (name : String) (st : EngineState) (c : TableCache)
    (k : Table → Except EngErr (EngRes × Table)) (h : Inv st c)
    (hk : ∀ t, k t ≠ Except.error EngErr.connectionClosed) :
    (withPrepared name st c k).1 ≠ Except.error EngErr.connectionClosed := by
  have hc := prepare_cache name st c h
  simp only [withPrepared]
  rw [if_pos hc.2]
  cases hkk : k ((Db.getTable (prepare name st c).1.db name).getD []) with
  | ok pr =>
    obtain ⟨r, t2⟩ := pr
    simp
  | error e =>
    cases e with
    | constraintViolation => simp
    | connectionClosed => exact (hk _ hkk).elim

theorem liftTableOp_not_closed {α : Type} (f : QOp Table SqlErr α)
    (g : α → EngRes) (t : Table) :
    liftTableOp f g t ≠ Except.error EngErr.connectionClosed := by
  unfold liftTableOp
  cases hf : f t with
  | ok pr =>
    obtain ⟨a, t2⟩ := pr
    simp
  | error e =>
    cases e
    simp

theorem runEngOp_not_closed (name : String) (op : EngOp) (st : EngineState)
    (c : TableCache) (h : Inv st c) :
    (runEngOp name op st c).1 ≠ Except.error EngErr.connectionClosed := by
  cases op with
  | read => exact withPrepared_not_closed name st c _ h (fun t => by simp)
  | write items =>
    exact withPrepared_not_closed name st c _ h (liftTableOp_not_closed _ _)
  | insert item =>
    exact withPrepared_not_closed name st c _ h (liftTableOp_not_closed _ _)
  | update id fields =>
    exact withPrepared_not_closed name st c _ h (liftTableOp_not_closed _ _)
  | remove id =>
    exact withPrepared_not_closed name st c _ h (liftTableOp_not_closed _ _)
  | findById id => exact withPrepared_not_closed name st c _ h (fun t => by simp)
  | backup => simp [runEngOp]
  | restore d => simp [runEngOp]

theorem runEngOps_inv (name : String) (ops : List EngOp) :
    ∀ s : EngineState × TableCache, Inv s.1 s.2 →
      Inv (runEngOps name ops s).1 (runEngOps name ops s).2 := by
  induction ops with
  | nil => exact fun s h => h
  | cons op rest ih =>
    intro s h
    show Inv (runEngOps name rest (runEngOp name op s.1 s.2).2).1
      (runEngOps name rest (runEngOp name op s.1 s.2).2).2
    exact ih _ (runEngOp_inv name op s.1 s.2 h)

/-! ## Claim C6 -/

/-- Claim C6: in `restore`, closing the current connection precedes the
replacement of the database file (which is done by writing the incoming
bytes to a temporary path and renaming it onto the database path), and
the generation counter increments only as the final step; no engine
operation other than restore ever changes the generation, while restore
increments it by exactly one. -/
theorem c6_restore_ordering :
    restoreTrace.indexOf Effect.closeConn
      < restoreTrace.indexOf Effect.renameTempToDb ∧
    restoreTrace.indexOf Effect.writeTempFile
      < restoreTrace.indexOf Effect.renameTempToDb ∧
    restoreTrace.getLast? = some Effect.incrGeneration ∧
    restoreTrace.count Effect.incrGeneration = 1 ∧
    (∀ op, isRestore op = false → Effect.incrGeneration ∉ opEffects op) ∧
    (∀ name st c op, isRestore op = false →
      ((runEngOp name op st c).2.1).generation = st.generation) ∧
    (∀ name st c d,
      ((runEngOp name (EngOp.restore d) st c).2.1).generation
        = st.generation + 1) := by
  refine ⟨by decide, by decide, by decide, by decide, ?_, ?_, ?_⟩
  · intro op hop
    cases op <;> simp_all [opEffects, isRestore, restoreTrace]
  · intro name st c op hop
    cases op <;>
      first
        | exact (withPrepared_state name st c _).1
        | rfl
        | simp [isRestore] at hop
  · intro name st c d
    rfl

/-- Concrete instance of the generation clauses of C6 at the read operation
and a concrete engine state. -/
theorem c6_restore_ordering_witness :
    isRestore EngOp.read = false ∧
    Effect.incrGeneration ∉ opEffects EngOp.read ∧
    ((runEngOp "items" EngOp.read
        { db := [("items", [("1", [("id", Val.str "1")])])],
          conn := 0, generation := 0 }
        { gen := 0, conn := 0 }).2.1).generation
      = ({ db := [("items", [("1", [("id", Val.str "1")])])],
           conn := 0, generation := 0 } : EngineState).generation :=
  ⟨by decide,
   c6_restore_ordering.2.2.2.2.1 EngOp.read (by decide),
   c6_restore_ordering.2.2.2.2.2.1 "items" _ _ EngOp.read (by decide)⟩

/-! ## Claim C7 -/

/-- Engine and cache state after: back up (yielding the bytes `st.db`),
run `ops`, then restore the backup. -/
def afterRestore (name : String) (st : EngineState) (c : TableCache)
    (ops : List EngOp) : EngineState × TableCache :=
  (runEngOp name (EngOp.restore st.db)
    (runEngOps name ops (st, c)).1 (runEngOps name ops (st, c)).2).2

/-- Claim C7: from any coherent engine/cache state, `backup` returns the
serialized current database (leaving the state untouched); after further
arbitrary operations, restoring that backup brings the database contents
back to their backup-time value; and every subsequent operation succeeds
without any manual cache reset — the per-operation `prepare()` re-checks
the cached generation and rebuilds the prepared access on mismatch, so
no operation can hit the stale (closed) connection. -/
theorem c7_backup_restore_roundtrip (name : String) (st : EngineState)
    (c : TableCache) (ops : List EngOp) (h : Inv st c) :
    runEngOp name EngOp.backup st c = (Except.ok (EngRes.bytes st.db), st, c) ∧
    (afterRestore name st c ops).1.db = st.db ∧
    ∀ op2, (runEngOp name op2 (afterRestore name st c ops).1
        (afterRestore name st c ops).2).1
      ≠ Except.error EngErr.connectionClosed := by
  refine ⟨rfl, rfl, ?_⟩
  intro op2
  apply runEngOp_not_closed
  have h2 := runEngOps_inv name ops (st, c) h
  exact runEngOp_inv name (EngOp.restore st.db) _ _ h2

/-- Concrete instance of C7: one-row backup, one interleaved insert,
restore, then any further operation. -/
theorem c7_backup_restore_roundtrip_witness :
    Inv { db := [("items", [("1", [("id", Val.str "1")])])],
          conn := 0, generation := 0 }
        { gen := 0, conn := 0 } ∧
    (runEngOp "items" EngOp.backup
        { db := [("items", [("1", [("id", Val.str "1")])])],
          conn := 0, generation := 0 }
        { gen := 0, conn := 0 }
      = (Except.ok (EngRes.bytes [("items", [("1", [("id", Val.str "1")])])]),
         { db := [("items", [("1", [("id", Val.str "1")])])],
           conn := 0, generation := 0 },
         { gen := 0, conn := 0 }) ∧
     (afterRestore "items"
        { db := [("items", [("1", [("id", Val.str "1")])])],
          conn := 0, generation := 0 }
        { gen := 0, conn := 0 }
        [EngOp.insert [("id", Val.str "2")]]).1.db
       = [("items", [("1", [("id", Val.str "1")])])] ∧
     ∀ op2, (runEngOp "items" op2
         (afterRestore "items"
           { db := [("items", [("1", [("id", Val.str "1")])])],
             conn := 0, generation := 0 }
           { gen := 0, conn := 0 }
           [EngOp.insert [("id", Val.str "2")]]).1
         (afterRestore "items"
           { db := [("items", [("1", [("id", Val.str "1")])])],
             conn := 0, generation := 0 }
           { gen := 0, conn := 0 }
           [EngOp.insert [("id", Val.str "2")]]).2).1
       ≠ Except.error EngErr.connectionClosed) :=
  ⟨by unfold Inv; decide,
   c7_backup_restore_roundtrip "items" _ _ _ (by unfold Inv; decide)⟩

/-! ## Claim C1 -/

/-- Is this call a whole-collection `write`? -/
def wholeWrite : StoreCall → Bool
  | StoreCall.write _ => true
  | _ => false

/-- Counterexample to claim C1 as stated: at a concrete valid create
request, the synthesized Create handler issues no granular point
operation at all — in particular no `insert` — and instead persists by
reading the whole collection and writing it back with the new entity
appended. -/
theorem c1_counterexample :
    ((createHandler ["name"]
        [("name", Val.str ""), ("status", Val.str "draft"), ("createdAt", Val.str "")]
        (some "items") true "uuid-1" "t0"
        [("name", Val.str "Test")] []).calls.any pointOp) = false ∧
    ((createHandler ["name"]
        [("name", Val.str ""), ("status", Val.str "draft"), ("createdAt", Val.str "")]
        (some "items") true "uuid-1" "t0"
        [("name", Val.str "Test")] []).calls.any wholeWrite) = true ∧
    (createHandler ["name"]
        [("name", Val.str ""), ("status", Val.str "draft"), ("createdAt", Val.str "")]
        (some "items") true "uuid-1" "t0"
        [("name", Val.str "Test")] []).calls.head? = some StoreCall.read := by
  refine ⟨by decide, by decide, by decide⟩

/-- Claim C1 as amended: whatever backend is bound (granular or not),
the synthesized handlers operate only through whole-collection
`read()`/`write()`: a valid Create reads the collection and persists the
new entity by writing the collection with it appended, and none of the
Create/Update/Delete handlers ever issues a granular point operation
(`insert`/`update`/`remove`/`findById`). -/
theorem c1_amended (required : List String) (defaults : Obj)
    (notify : Option String) (sp : Bool) (fid now : String) (body : Obj)
    (items : List Obj)
    (h : required.find? (fun f => !(truthy (Obj.get body f))) = none) :
    (∃ item, (createHandler required defaults notify sp fid now body items).resp
        = HResp.created item ∧
      (createHandler required defaults notify sp fid now body items).calls
        = [StoreCall.read, StoreCall.write (items ++ [item])]) ∧
    (createHandler required defaults notify sp fid now body items).calls.any pointOp
      = false ∧
    (∀ ro pid b its,
      (updateHandler ro notify sp pid b its).calls.any pointOp = false) ∧
    (∀ pid its, (deleteHandler notify sp pid its).calls.any pointOp = false) := by
  refine ⟨⟨Obj.set (Obj.set (Obj.merge defaults body) "id"
      (coalesce (Obj.get body "id") (Val.str fid))) "createdAt"
      (coalesce (Obj.get body "createdAt") (Val.str now)), ?_, ?_⟩, ?_, ?_, ?_⟩
  · simp only [createHandler, h]
  · simp only [createHandler, h]
  · simp only [createHandler, h]
    rfl
  · intro ro pid b its
    by_cases hlt : its.findIdx (hasParamId pid) < its.length
    · simp only [updateHandler, if_pos hlt]
      rfl
    · simp only [updateHandler, if_neg hlt]
      rfl
  · intro pid its
    by_cases hlen : (its.filter (fun i => !(hasParamId pid i))).length = its.length
    · simp only [deleteHandler, if_pos hlen]
      rfl
    · simp only [deleteHandler, if_neg hlen]
      rfl

/-- Concrete instance of the amended C1. -/
theorem c1_amended_witness :
    (["name"].find? (fun f =>
        !(truthy (Obj.get [("name", Val.str "Test")] f))) = none) ∧
    ((∃ item, (createHandler ["name"] [("name", Val.str "")] none false
          "uuid-1" "t0" [("name", Val.str "Test")] []).resp
        = HResp.created item ∧
      (createHandler ["name"] [("name", Val.str "")] none false
          "uuid-1" "t0" [("name", Val.str "Test")] []).calls
        = [StoreCall.read, StoreCall.write ([] ++ [item])]) ∧
     (createHandler ["name"] [("name", Val.str "")] none false
         "uuid-1" "t0" [("name", Val.str "Test")] []).calls.any pointOp
       = false ∧
     (∀ ro pid b its,
       (updateHandler ro none false pid b its).calls.any pointOp = false) ∧
     (∀ pid its,
       (deleteHandler none false pid its).calls.any pointOp = false)) :=
  ⟨by decide, c1_amended ["name"] [("name", Val.str "")] none false
    "uuid-1" "t0" [("name", Val.str "Test")] [] (by decide)⟩

/-! ## Claim C3 -/

/-- Claim C3: on update, the stored value of every field declared
readonly is unchanged — the handler strips readonly keys from the body
before the merge and re-asserts `id`, so whatever the request body
contains, each readonly field of every stored entity (the target entity
included) has the same value after the update as before. -/
theorem c3_readonly_preserved (ro : List String) (notify : Option String)
    (sp : Bool) (pid : String) (body : Obj) (items : List Obj)
    (f : String) (hf : f ∈ ro) (j : Nat) :
    Obj.get ((updateHandler ro notify sp pid body items).items.getD j []) f
      = Obj.get (items.getD j []) f := by
  by_cases hlt : items.findIdx (hasParamId pid) < items.length
  · simp only [updateHandler, if_pos hlt]
    by_cases hj : j = items.findIdx (hasParamId pid)
    · subst hj
      rw [getD_set_self hlt]
      have hold : Obj.get (items.getD (items.findIdx (hasParamId pid)) []) "id"
          = some (Val.str pid) := by
        have hp := findIdx_getD (hasParamId pid) items hlt
        unfold hasParamId at hp
        exact eq_of_beq hp
      unfold Obj.set Obj.merge
      rw [Obj.get_cons]
      by_cases hid : f = "id"
      · rw [if_pos hid.symm, hid, hold]
      · rw [if_neg (fun hh => hid hh.symm)]
        rw [Obj.get_append, Obj.get_deleteKeys, if_pos hf]
        simp
    · rw [getD_set_ne (fun hh => hj hh.symm)]
  · simp only [updateHandler, if_neg hlt]

/-- Concrete instance of C3: a body trying to overwrite a readonly
`createdAt` leaves the stored value intact. -/
theorem c3_readonly_preserved_witness :
    ("createdAt" ∈ ["createdAt"]) ∧
    Obj.get (((updateHandler ["createdAt"] (some "todos") true "1"
          [("createdAt", Val.str "hacked")]
          [[("id", Val.str "1"), ("createdAt", Val.str "orig")]]).items.getD 0 []))
        "createdAt"
      = Obj.get ([[("id", Val.str "1"), ("createdAt", Val.str "orig")]].getD 0 [])
          "createdAt" ∧
    Obj.get ([[("id", Val.str "1"), ("createdAt", Val.str "orig")]].getD 0 [])
        "createdAt" = some (Val.str "orig") :=
  ⟨by decide,
   c3_readonly_preserved ["createdAt"] (some "todos") true "1"
     [("createdAt", Val.str "hacked")]
     [[("id", Val.str "1"), ("createdAt", Val.str "orig")]]
     "createdAt" (by decide) 0,
   by decide⟩

/-! ## Claim C4 -/

/-- Counterexample to claim C4 as stated: when the request body of a
successful notify-enabled update contains a readonly field, the
published update event carries a `fields` payload that is the body with the readonly
keys deleted (the handler mutates the body before publishing), so it
does not equal the incoming request body. -/
theorem c4_counterexample :
    (updateHandler ["createdAt"] (some "todos") true "1"
        [("createdAt", Val.str "hacked"), ("status", Val.str "active")]
        [[("id", Val.str "1"), ("createdAt", Val.str "orig"),
          ("status", Val.str "draft")]]).event
      = some ("todos", NotifyEvent.update "1" [("status", Val.str "active")]) ∧
    Obj.get [("createdAt", Val.str "hacked"), ("status", Val.str "active")]
        "createdAt" = some (Val.str "hacked") ∧
    Obj.get [("status", Val.str "active")] "createdAt" = none := by
  refine ⟨by decide, by decide, by decide⟩

/-- Claim C4 as amended: the published update event carries exactly the
incoming request body with the readonly fields removed — for every key,
the value in the payload is the value in the body unless the key is readonly, in
which case it is absent.  (In particular the payload never contains
fields of the merged entity that the body did not carry; for bodies
without readonly keys it equals the body exactly.) -/
theorem c4_amended (ro : List String) (topic pid : String) (body : Obj)
    (items : List Obj)
    (hfound : items.findIdx (hasParamId pid) < items.length) :
    ∃ fields, (updateHandler ro (some topic) true pid body items).event
        = some (topic, NotifyEvent.update pid fields) ∧
      ∀ k, Obj.get fields k = if k ∈ ro then none else Obj.get body k := by
  refine ⟨Obj.deleteKeys body ro, ?_, fun k => Obj.get_deleteKeys ro body k⟩
  simp only [updateHandler, if_pos hfound]
  rw [if_pos trivial]

/-- Concrete instance of the amended C4. -/
theorem c4_amended_witness :
    ([[("id", Val.str "1"), ("status", Val.str "draft")]].findIdx
        (hasParamId "1") < 1) ∧
    (∃ fields, (updateHandler ["createdAt"] (some "todos") true "1"
          [("status", Val.str "active")]
          [[("id", Val.str "1"), ("status", Val.str "draft")]]).event
        = some ("todos", NotifyEvent.update "1" fields) ∧
      ∀ k, Obj.get fields k = if k ∈ ["createdAt"] then none
        else Obj.get [("status", Val.str "active")] k) :=
  ⟨by decide,
   c4_amended ["createdAt"] "todos" "1" [("status", Val.str "active")]
     [[("id", Val.str "1"), ("status", Val.str "draft")]] (by decide)⟩

/-! ## Claim C10 -/

/-- Counterexample to claim C10 as stated: the Update handler does not
persist a body-supplied `id` field unchanged even though `id` is not
declared readonly — the `id` of the stored entity is re-asserted from the URL
parameter, overriding the value from the body. -/
theorem c10_counterexample :
    Obj.get (respBody (updateHandler [] none false "abc"
        [("id", Val.str "zzz"), ("name", Val.str "New")]
        [[("id", Val.str "abc"), ("name", Val.str "Old")]]).resp) "id"
      = some (Val.str "abc") ∧
    Obj.get ((updateHandler [] none false "abc"
        [("id", Val.str "zzz"), ("name", Val.str "New")]
        [[("id", Val.str "abc"), ("name", Val.str "Old")]]).items.getD 0 []) "id"
      = some (Val.str "abc") ∧
    Obj.get [("id", Val.str "zzz"), ("name", Val.str "New")] "id"
      = some (Val.str "zzz") ∧
    ¬ ("id" ∈ ([] : List String)) := by
  refine ⟨by decide, by decide, by decide, by decide⟩

/-- Claim C10 as amended: the Create and Update handlers persist every
body field unchanged into the stored entity — fields undeclared in the
FieldSpec and `null` values included — except that on update the
readonly fields and `id` are excluded (`id` is re-asserted from the URL
parameter), and on create only the two coalesced keys `id` and
`createdAt` replace a `null` value with the generated one; validation
applies only the declared required rule on create and never rejects or
drops undeclared fields. -/
theorem c10_amended (required ro : List String) (defaults : Obj)
    (notify : Option String) (sp : Bool) (fid now pid : String)
    (body : Obj) (items : List Obj)
    (hreq : required.find? (fun f => !(truthy (Obj.get body f))) = none)
    (hfound : items.findIdx (hasParamId pid) < items.length) :
    (∀ k v, Obj.get body k = some v →
      (k = "id" → v ≠ Val.null) → (k = "createdAt" → v ≠ Val.null) →
      Obj.get (respBody (createHandler required defaults notify sp fid now
        body items).resp) k = some v) ∧
    ((createHandler required defaults notify sp fid now body items).items
      = items ++ [respBody (createHandler required defaults notify sp fid now
          body items).resp]) ∧
    (∀ k v, Obj.get body k = some v → k ∉ ro → k ≠ "id" →
      Obj.get ((updateHandler ro notify sp pid body items).items.getD
        (items.findIdx (hasParamId pid)) []) k = some v) := by
  refine ⟨?_, ?_, ?_⟩
  · intro k v hk hvid hvca
    simp only [createHandler, hreq, respBody]
    unfold Obj.set Obj.merge
    rw [Obj.get_cons]
    by_cases hca : k = "createdAt"
    · rw [if_pos hca.symm]
      rw [hca] at hk
      rw [hk, coalesce_some _ (hvca hca)]
    · rw [if_neg (fun hh => hca hh.symm), Obj.get_cons]
      by_cases hid : k = "id"
      · rw [if_pos hid.symm]
        rw [hid] at hk
        rw [hk, coalesce_some _ (hvid hid)]
      · rw [if_neg (fun hh => hid hh.symm), Obj.get_append, hk, Option.or_some]
  · simp only [createHandler, hreq, respBody]
  · intro k v hk hro hid
    simp only [updateHandler, if_pos hfound]
    rw [getD_set_self hfound]
    unfold Obj.set Obj.merge
    rw [Obj.get_cons]
    rw [if_neg (fun hh => hid hh.symm)]
    rw [Obj.get_append, Obj.get_deleteKeys, if_neg hro, hk, Option.or_some]

/-- Concrete instance of the amended C10, with a body carrying an
undeclared numeric field and an undeclared `null`-valued field. -/
theorem c10_amended_witness :
    (["name"].find? (fun f =>
        !(truthy (Obj.get [("name", Val.str "New"), ("extra", Val.num 7),
          ("note", Val.null)] f)))
      = none) ∧
    ([[("id", Val.str "1"), ("name", Val.str "Old")]].findIdx (hasParamId "1")
      < 1) ∧
    ((∀ k v, Obj.get [("name", Val.str "New"), ("extra", Val.num 7),
          ("note", Val.null)] k = some v →
        (k = "id" → v ≠ Val.null) → (k = "createdAt" → v ≠ Val.null) →
        Obj.get (respBody (createHandler ["name"] [("name", Val.str "")] none
          false "uuid-1" "t0" [("name", Val.str "New"), ("extra", Val.num 7),
          ("note", Val.null)]
          [[("id", Val.str "1"), ("name", Val.str "Old")]]).resp) k = some v) ∧
     ((createHandler ["name"] [("name", Val.str "")] none false "uuid-1" "t0"
        [("name", Val.str "New"), ("extra", Val.num 7), ("note", Val.null)]
        [[("id", Val.str "1"), ("name", Val.str "Old")]]).items
       = [[("id", Val.str "1"), ("name", Val.str "Old")]]
           ++ [respBody (createHandler ["name"] [("name", Val.str "")] none
           false "uuid-1" "t0" [("name", Val.str "New"), ("extra", Val.num 7),
           ("note", Val.null)]
           [[("id", Val.str "1"), ("name", Val.str "Old")]]).resp]) ∧
     (∀ k v, Obj.get [("name", Val.str "New"), ("extra", Val.num 7),
          ("note", Val.null)] k = some v →
        k ∉ ([] : List String) → k ≠ "id" →
        Obj.get ((updateHandler [] none false "1"
          [("name", Val.str "New"), ("extra", Val.num 7), ("note", Val.null)]
          [[("id", Val.str "1"), ("name", Val.str "Old")]]).items.getD
          ([[("id", Val.str "1"), ("name", Val.str "Old")]].findIdx
            (hasParamId "1")) []) k = some v)) :=
  ⟨by decide, by decide,
   c10_amended ["name"] [] [("name", Val.str "")] none false "uuid-1" "t0" "1"
     [("name", Val.str "New"), ("extra", Val.num 7), ("note", Val.null)]
     [[("id", Val.str "1"), ("name", Val.str "Old")]]
     (by decide) (by decide)⟩

end Paintbrush
